import Mathlib

/-!
Shallow embedding of the transaction RAG chatbot
(`src/data_loader.py`, `src/vector_store.py`, `src/rag_chain.py`).

Python dictionaries for transactions are modelled with `Option` fields,
since the code accesses every field through `dict.get` with a default.
The ChromaDB collection is modelled as a list of indexed documents keyed
by their `doc_id` string, with `add_documents` performing an upsert per
document (the langchain Chroma wrapper embeds all texts first, then
upserts).  Provider calls (embedding, generation) are modelled as
functions into `Except Unit`, an `Except.error` standing for a raised
exception.  Stateful methods become explicit state-passing functions; a
method that can raise returns the state reached at the raise point
together with the `Except` outcome, matching Python semantics where
mutations before a raise persist.
-/

namespace RagBot

/-- A transaction dictionary: every field optional, as the code reads each
key with `transaction.get(key, default)`. -/
structure TxnDict where
  id : Option Int
  customer : Option String
  product : Option String
  amount : Option Int
  date : Option String
deriving DecidableEq, Repr

/-- Rendering of a transaction with all fields resolved, exactly the
f-string of `preprocess_transaction` in `src/data_loader.py` (the source
file literally contains the bytes `â‚¹` before the amount). -/
def renderTxn (txn_id : Int) (customer : String) (product : String)
    (amount : Int) (date : String) : String :=
  "Transaction ID " ++ toString txn_id ++ ": On " ++ date ++ ", " ++ customer
    ++ " purchased a " ++ product ++ " for â‚¹" ++ toString amount
    ++ ". Customer: " ++ customer ++ ", Product: " ++ product
    ++ ", Amount: " ++ toString amount ++ ", Date: " ++ date ++ "."

/-- Embedding of `preprocess_transaction` (`src/data_loader.py`): reads
each field with a default and renders the description string. -/
def preprocess_transaction (t : TxnDict) : String :=
  let customer := t.customer.getD "Unknown"
  let product := t.product.getD "Unknown Product"
  let amount := t.amount.getD 0
  let date := t.date.getD "Unknown Date"
  let txn_id := t.id.getD 0
  "Transaction ID " ++ toString txn_id ++ ": On " ++ date ++ ", " ++ customer
    ++ " purchased a " ++ product ++ " for â‚¹" ++ toString amount
    ++ ". Customer: " ++ customer ++ ", Product: " ++ product
    ++ ", Amount: " ++ toString amount ++ ", Date: " ++ date ++ "."

/-- Python `str` of an optional value as used in `f"txn_{metadata['id']}"`:
a missing id prints as `None`. -/
def pyStr : Option Int → String
  | some n => toString n
  | none => "None"

/-- The unique document id `"txn_<id>"` built in `ingest_transactions`. -/
def docIdOf (t : TxnDict) : String := "txn_" ++ pyStr t.id

/-- Document metadata: the record's fields (from `get_transaction_metadata`,
which uses `txn.get(...)` and so may hold `None`) plus the `doc_id` added
in `ingest_transactions`. -/
structure Meta where
  id : Option Int
  customer : Option String
  product : Option String
  amount : Option Int
  date : Option String
  doc_id : String
deriving DecidableEq, Repr

/-- Metadata derived from one transaction record. -/
def metadataOf (t : TxnDict) : Meta :=
  { id := t.id, customer := t.customer, product := t.product,
    amount := t.amount, date := t.date, doc_id := docIdOf t }

/-- A langchain `Document`: page content plus metadata. -/
structure Doc where
  page_content : String
  metadata : Meta
deriving DecidableEq, Repr

/-- The `Document` built for one transaction in `ingest_transactions`. -/
def docOf (t : TxnDict) : Doc :=
  { page_content := preprocess_transaction t, metadata := metadataOf t }

/-- A document together with its embedding vector, as stored in the
Chroma collection. -/
structure IndexedDoc where
  doc : Doc
  embedding : List Int
deriving DecidableEq, Repr

/-- State of a `VectorStoreManager`: the documents currently in the Chroma
collection (shared between memory and the persist directory) and whether
`self.vectorstore` has been set. -/
structure MgrState where
  coll : List IndexedDoc
  loaded : Bool
deriving DecidableEq, Repr

/-- Embedding of `initialize_store`: creating the `Chroma` handle attaches
to the existing collection without changing its contents. -/
def initialize_store (st : MgrState) : MgrState := { st with loaded := true }

/-- The Chroma wrapper embeds every page content before inserting; one
provider failure aborts the whole batch with nothing inserted. -/
def embedAll (embed : String → Except Unit (List Int)) :
    List Doc → Except Unit (List IndexedDoc)
  | [] => Except.ok []
  | d :: ds =>
    match embed d.page_content with
    | Except.error e => Except.error e
    | Except.ok v =>
      match embedAll embed ds with
      | Except.error e => Except.error e
      | Except.ok rest => Except.ok ({ doc := d, embedding := v } :: rest)

/-- Upsert of a single indexed document keyed by `doc_id` (Chroma
`upsert` semantics: replace the entry with the same id, else append). -/
def upsertOne (coll : List IndexedDoc) (d : IndexedDoc) : List IndexedDoc :=
  if coll.any (fun x => x.doc.metadata.doc_id == d.doc.metadata.doc_id) then
    coll.map (fun x =>
      if x.doc.metadata.doc_id == d.doc.metadata.doc_id then d else x)
  else coll ++ [d]

/-- Embedding of `Chroma.add_documents` with explicit ids: embed all
texts, then upsert every document into the collection. -/
def add_documents (embed : String → Except Unit (List Int))
    (coll : List IndexedDoc) (docs : List Doc) :
    Except Unit (List IndexedDoc) :=
  match embedAll embed docs with
  | Except.error e => Except.error e
  | Except.ok idocs => Except.ok (idocs.foldl upsertOne coll)

/-- Embedding of `VectorStoreManager.ingest_transactions`
(`src/vector_store.py`): initialize the store if needed, build one
document per record, delete the collection, recreate it empty, then add
the documents (which is where the Embedding Provider is called).  The
returned state is the state at normal return or at the raise point. -/
def ingest_transactions (embed : String → Except Unit (List Int))
    (records : List TxnDict) (st : MgrState) :
    MgrState × Except Unit Unit :=
  let st1 := if st.loaded then st else initialize_store st
  let documents := records.map docOf
  let st2 : MgrState := { st1 with coll := [] }
  match add_documents embed st2.coll documents with
  | Except.error e => (st2, Except.error e)
  | Except.ok newColl => ({ st2 with coll := newColl }, Except.ok ())

/-- Embedding of `vectorstore._collection.count()`. -/
def countDocs (st : MgrState) : Nat := st.coll.length

/-- Embedding of `Chroma.similarity_search(query, k)`: embed the query,
rank the collection by similarity to the query embedding (most similar
first, via an abstract integer similarity score), take the first `k`. -/
def similarity_search (sim : List Int → List Int → Int)
    (embedQ : String → Except Unit (List Int)) (q : String) (k : Nat)
    (coll : List IndexedDoc) : Except Unit (List Doc) :=
  match embedQ q with
  | Except.error e => Except.error e
  | Except.ok qe =>
    Except.ok
      (((coll.mergeSort
          (fun a b => sim qe b.embedding ≤ sim qe a.embedding)).take k).map
        IndexedDoc.doc)

/-- Embedding of `VectorStoreManager.retrieve_transactions`: delegates to
`similarity_search` on the current collection with `top_k`. -/
def retrieve_transactions (sim : List Int → List Int → Int)
    (embedQ : String → Except Unit (List Int)) (st : MgrState)
    (q : String) (top_k : Nat) : Except Unit (List Doc) :=
  similarity_search sim embedQ q top_k st.coll

/-- Role of a message in the conversation buffer. -/
inductive MsgType where
  | human
  | ai
deriving DecidableEq, Repr

/-- One message of the langchain chat history. -/
structure Msg where
  type : MsgType
  content : String
deriving DecidableEq, Repr

/-- The `ConversationBufferWindowMemory` of the chatbot: the underlying
`chat_memory.messages` list.  The window size `k` is applied when the
buffer is loaded, not when messages are stored. -/
structure Memory where
  messages : List Msg
deriving DecidableEq, Repr

/-- The window size `k=10` passed to `ConversationBufferWindowMemory` in
`RAGChatbot.__init__`. -/
def memoryK : Nat := 10

/-- A freshly constructed memory. -/
def emptyMemory : Memory := { messages := [] }

/-- Embedding of `memory.save_context({"question": q}, {"answer": a})`:
appends a human message and an ai message. -/
def save_context (m : Memory) (question answer : String) : Memory :=
  { messages := m.messages
      ++ [{ type := MsgType.human, content := question },
          { type := MsgType.ai, content := answer }] }

/-- Embedding of `memory.clear()`. -/
def clearMemory (_m : Memory) : Memory := { messages := [] }

/-- Python `xs[-n:]`: the last `n` elements (all of them when fewer). -/
def lastN (l : List Msg) (n : Nat) : List Msg := l.drop (l.length - n)

/-- Embedding of `memory.load_memory_variables({})["chat_history"]` for a
window memory with size `memoryK`: the last `2 * k` stored messages. -/
def load_memory_variables (m : Memory) : List Msg :=
  lastN m.messages (2 * memoryK)

/-- Role label used when formatting history in `RAGChatbot.query`. -/
def roleOf : MsgType → String
  | MsgType.human => "User"
  | MsgType.ai => "Assistant"

/-- The `f"{role}: {msg.content}\n"` lines accumulated over messages. -/
def historyLines (msgs : List Msg) : String :=
  msgs.foldl (fun acc msg => acc ++ roleOf msg.type ++ ": " ++ msg.content ++ "\n") ""

/-- The `history_text` built in `RAGChatbot.query` from the loaded chat
history: empty when there is no history, else a header plus the last six
messages rendered as role-prefixed lines. -/
def historyText (chat_history : List Msg) : String :=
  if chat_history.isEmpty then ""
  else "\n\nPrevious Conversation:\n" ++ historyLines (lastN chat_history 6)

/-- The prompt template of `RAGChatbot.query` with `history`, `context`
and `question` substituted (the source file literally contains the bytes
`‚Çπ` in the rupee line). -/
def buildPrompt (history context question : String) : String :=
  "You are an intelligent transaction assistant with access to all transaction data.\n"
    ++ history
    ++ "\nAvailable Transaction Data:\n"
    ++ context
    ++ "\n\nCurrent Question: "
    ++ question
    ++ "\n\nThink step-by-step:\n"
    ++ "1. Check if this is a follow-up question referring to previous conversation\n"
    ++ "2. What is the user asking for? (specific customer, comparison, total, analysis, etc.)\n"
    ++ "3. Which transactions are relevant to answer this question?\n"
    ++ "4. What level of detail does the user want? (concise summary vs detailed breakdown)\n"
    ++ "\nResponse Guidelines:\n"
    ++ "- If this is a follow-up question, use context from previous conversation\n"
    ++ "- For simple \"total\" or \"how much\" questions: Provide a concise answer with just the final number\n"
    ++ "- For \"show me\" or \"list\" questions: Provide detailed breakdown\n"
    ++ "- For \"all customers\" with \"list each\": Show complete breakdown by customer\n"
    ++ "- For comparisons or rankings: Show relevant comparisons\n"
    ++ "- Always be accurate and use all relevant data\n"
    ++ "- Use Indian Rupee format: Rs.X,XXX or ‚ÇπX,XXX\n"
    ++ "\nAnswer the question appropriately:"

/-- The result dictionary returned by `RAGChatbot.query`. -/
structure QueryResult where
  answer : String
  source_documents : List Doc
  sources : List Meta
deriving DecidableEq, Repr

/-- State of a `RAGChatbot`: the manager's vector store (None until
initialized) and the conversation memory. -/
structure BotState where
  vectorstore : Option (List IndexedDoc)
  memory : Memory
deriving DecidableEq, Repr

/-- The fixed apology answer of the `except` branch of `RAGChatbot.query`. -/
def fallbackAnswer : String :=
  "I'm sorry, I encountered an error processing your question. Please try again."

/-- The fallback result dictionary of the `except` branch. -/
def fallbackResult : QueryResult :=
  { answer := fallbackAnswer, source_documents := [], sources := [] }

/-- Embedding of `RAGChatbot.query` (`src/rag_chain.py`): retrieve with
`k = 14` over the manager's vector store, build the context and history
text, invoke the generation provider on the formatted prompt, save the
turn to memory on success, and return answer plus sources.  Any raise
inside the `try` block (vector store absent, embedding failure,
generation failure) is caught and mapped to the fallback result with the
state unchanged. -/
def query (sim : List Int → List Int → Int)
    (embedQ : String → Except Unit (List Int))
    (gen : String → Except Unit String) (question : String)
    (st : BotState) : QueryResult × BotState :=
  match st.vectorstore with
  | none => (fallbackResult, st)
  | some coll =>
    match similarity_search sim embedQ question 14 coll with
    | Except.error _ => (fallbackResult, st)
    | Except.ok all_docs =>
      let context := String.intercalate "\n\n" (all_docs.map Doc.page_content)
      let chat_history := load_memory_variables st.memory
      let history_text := historyText chat_history
      let promptText := buildPrompt history_text context question
      match gen promptText with
      | Except.error _ => (fallbackResult, st)
      | Except.ok answer =>
        ({ answer := answer, source_documents := all_docs,
           sources := all_docs.map Doc.metadata },
         { st with memory := save_context st.memory question answer })

/-- Embedding of `RAGChatbot.chat`: with memory it is plain `query`;
without, it copies the message list, clears the memory, runs `query`,
then reassigns the saved messages before returning. -/
def chat (sim : List Int → List Int → Int)
    (embedQ : String → Except Unit (List Int))
    (gen : String → Except Unit String) (question : String)
    (use_memory : Bool) (st : BotState) : QueryResult × BotState :=
  if use_memory then query sim embedQ gen question st
  else
    let temp_memory := st.memory.messages
    let st1 := { st with memory := clearMemory st.memory }
    let res := query sim embedQ gen question st1
    (res.1, { res.2 with memory := { messages := temp_memory } })

/-- Operations a caller can perform on the conversation memory. -/
inductive MemOp where
  | append (question answer : String)
  | clear
deriving DecidableEq, Repr

/-- Apply one memory operation. -/
def applyOp (m : Memory) : MemOp → Memory
  | MemOp.append q a => save_context m q a
  | MemOp.clear => clearMemory m

/-- Apply a sequence of memory operations in order. -/
def applyOps (m : Memory) (ops : List MemOp) : Memory := ops.foldl applyOp m

/-- One conversation turn. -/
structure Turn where
  question : String
  answer : String
deriving DecidableEq, Repr

/-- Append a list of turns to the memory, oldest first. -/
def appendTurns (m : Memory) : List Turn → Memory
  | [] => m
  | t :: ts => appendTurns (save_context m t.question t.answer) ts

/-- The flat message sequence of a list of turns. -/
def turnMsgs : List Turn → List Msg
  | [] => []
  | t :: ts =>
    { type := MsgType.human, content := t.question }
      :: { type := MsgType.ai, content := t.answer } :: turnMsgs ts

/-- The string `sub` occurs in `s` as a literal substring. -/
def ContainsSub (s sub : String) : Prop := ∃ p q, s = p ++ sub ++ q

/-- The two concrete records of the end-to-end scenario. -/
def rec1 : TxnDict :=
  { id := some 1, customer := some "Amit", product := some "Laptop",
    amount := some 55000, date := some "2024-01-12" }

/-- Second concrete record of the end-to-end scenario. -/
def rec2 : TxnDict :=
  { id := some 2, customer := some "Amit", product := some "Mouse",
    amount := some 700, date := some "2024-02-15" }

/-- C7: re-deriving the content from the same record is byte-identical,
and for every fully populated record the rendered content contains the
customer, product, amount and date values as literal substrings. -/
theorem preprocess_deterministic_contains_fields
    (i : Int) (c p : String) (a : Int) (d : String) :
    preprocess_transaction
        { id := some i, customer := some c, product := some p,
          amount := some a, date := some d } =
      preprocess_transaction
        { id := some i, customer := some c, product := some p,
          amount := some a, date := some d } ∧
    ContainsSub (preprocess_transaction
      { id := some i, customer := some c, product := some p,
        amount := some a, date := some d }) c ∧
    ContainsSub (preprocess_transaction
      { id := some i, customer := some c, product := some p,
        amount := some a, date := some d }) p ∧
    ContainsSub (preprocess_transaction
      { id := some i, customer := some c, product := some p,
        amount := some a, date := some d }) (toString a) ∧
    ContainsSub (preprocess_transaction
      { id := some i, customer := some c, product := some p,
        amount := some a, date := some d }) d := by
  refine ⟨rfl, ?_, ?_, ?_, ?_⟩
  · refine ⟨"Transaction ID " ++ toString i ++ ": On " ++ d ++ ", ",
      " purchased a " ++ p ++ " for â‚¹" ++ toString a ++ ". Customer: "
        ++ c ++ ", Product: " ++ p ++ ", Amount: " ++ toString a
        ++ ", Date: " ++ d ++ ".", ?_⟩
    simp [preprocess_transaction, String.append_assoc]
  · refine ⟨"Transaction ID " ++ toString i ++ ": On " ++ d ++ ", " ++ c
        ++ " purchased a ",
      " for â‚¹" ++ toString a ++ ". Customer: " ++ c ++ ", Product: "
        ++ p ++ ", Amount: " ++ toString a ++ ", Date: " ++ d ++ ".", ?_⟩
    simp [preprocess_transaction, String.append_assoc]
  · refine ⟨"Transaction ID " ++ toString i ++ ": On " ++ d ++ ", " ++ c
        ++ " purchased a " ++ p ++ " for â‚¹",
      ". Customer: " ++ c ++ ", Product: " ++ p ++ ", Amount: "
        ++ toString a ++ ", Date: " ++ d ++ ".", ?_⟩
    simp [preprocess_transaction, String.append_assoc]
  · refine ⟨"Transaction ID " ++ toString i ++ ": On ",
      ", " ++ c ++ " purchased a " ++ p ++ " for â‚¹" ++ toString a
        ++ ". Customer: " ++ c ++ ", Product: " ++ p ++ ", Amount: "
        ++ toString a ++ ", Date: " ++ d ++ ".", ?_⟩
    simp [preprocess_transaction, String.append_assoc]

/-- C10: `preprocess_transaction` is total over arbitrary transaction
dictionaries; any missing field is replaced by its default (`0`,
`"Unknown"`, `"Unknown Product"`, `0`, `"Unknown Date"`), and the result
is always a non-empty rendered string. -/
theorem preprocess_total_with_defaults (t : TxnDict) :
    preprocess_transaction t =
      renderTxn (t.id.getD 0) (t.customer.getD "Unknown")
        (t.product.getD "Unknown Product") (t.amount.getD 0)
        (t.date.getD "Unknown Date") ∧
    preprocess_transaction t ≠ "" := by
  constructor
  · rfl
  · intro h
    have h2 := congrArg String.length h
    have h15 : ("Transaction ID " : String).length = 15 := rfl
    have h0 : ("" : String).length = 0 := rfl
    simp only [preprocess_transaction, String.length_append, h15, h0] at h2
    omega

/-- C3: a `chat` call with `use_memory = false` leaves the stored
message sequence exactly as it was before the call; the memory-less
answer is never recorded. -/
theorem chat_no_memory_preserves_history
    (sim : List Int → List Int → Int)
    (embedQ : String → Except Unit (List Int))
    (gen : String → Except Unit String) (question : String)
    (st : BotState) :
    (chat sim embedQ gen question false st).2.memory.messages
      = st.memory.messages := rfl

/-- C9: the conversation memory is mutated only on success: each `query`
either leaves the memory untouched (every failure path) or the generation
provider returned an answer successfully and exactly the
(question, answer) pair was appended. -/
theorem memory_mutated_only_on_success
    (sim : List Int → List Int → Int)
    (embedQ : String → Except Unit (List Int))
    (gen : String → Except Unit String) (question : String)
    (st : BotState) :
    (query sim embedQ gen question st).2.memory = st.memory ∨
    ∃ promptText answer, gen promptText = Except.ok answer ∧
      (query sim embedQ gen question st).1.answer = answer ∧
      (query sim embedQ gen question st).2.memory
        = save_context st.memory question answer := by
  unfold query
  split
  · left; rfl
  · split
    · left; rfl
    · dsimp only
      split
      · left; rfl
      · next heq => right; exact ⟨_, _, heq, rfl, rfl⟩

/-- C2: when the generation provider (or the embedding provider used
inside the query pipeline) raises on every call, `query` returns the
fixed non-empty fallback answer with empty sources and does not raise. -/
theorem query_provider_failure_fallback
    (sim : List Int → List Int → Int)
    (embedQ : String → Except Unit (List Int))
    (gen : String → Except Unit String) (question : String)
    (st : BotState)
    (h : (∀ s, gen s = Except.error ()) ∨ (∀ s, embedQ s = Except.error ())) :
    (query sim embedQ gen question st).1 = fallbackResult ∧
    fallbackAnswer ≠ "" := by
  constructor
  · unfold query
    rcases h with hg | he
    · split
      · rfl
      · split
        · rfl
        · dsimp only
          rw [hg]
    · split
      · rfl
      · simp only [similarity_search, he]
  · intro hcontra
    exact absurd hcontra (by decide)

/-- Witness for `query_provider_failure_fallback` at a concrete state. -/
theorem query_provider_failure_fallback_witness :
    (query (fun _ _ => 0) (fun _ => Except.ok []) (fun _ => Except.error ())
        "What is Amit's total spending?"
        { vectorstore := some [], memory := emptyMemory }).1 = fallbackResult ∧
    fallbackAnswer ≠ "" :=
  query_provider_failure_fallback _ _ _ _ _ (Or.inl fun _ => rfl)

/-- Loading the window memory never yields more than `2 * k` messages. -/
theorem load_memory_length_le (m : Memory) :
    (load_memory_variables m).length ≤ 2 * memoryK := by
  simp only [load_memory_variables, lastN, List.length_drop]
  omega

/-- Messages after appending turns are the old messages followed by the
flattened turns. -/
theorem appendTurns_messages (ts : List Turn) (m : Memory) :
    (appendTurns m ts).messages = m.messages ++ turnMsgs ts := by
  induction ts generalizing m with
  | nil => simp [appendTurns, turnMsgs]
  | cons t ts ih =>
    simp [appendTurns, turnMsgs, save_context, ih, List.append_assoc]

/-- Flattening turns doubles the length. -/
theorem turnMsgs_length (ts : List Turn) :
    (turnMsgs ts).length = 2 * ts.length := by
  induction ts with
  | nil => rfl
  | cons t ts ih =>
    simp only [turnMsgs, List.length_cons, ih]
    omega

/-- C5: the conversation memory behaves as a strict FIFO window of at
most `memoryK = 10` turns: after any sequence of append/clear operations
the loaded window holds at most `2 * memoryK` messages (that is, at most
`memoryK` turns), and appending `memoryK + 1` turns to a fresh memory
loads exactly the last `memoryK` turns in order, the oldest evicted. -/
theorem memory_window_bounded_fifo :
    (∀ (m : Memory) (ops : List MemOp),
        (load_memory_variables (applyOps m ops)).length ≤ 2 * memoryK) ∧
    (∀ ts : List Turn, ts.length = memoryK + 1 →
        load_memory_variables (appendTurns emptyMemory ts)
          = turnMsgs (ts.drop 1)) := by
  constructor
  · intro m ops
    exact load_memory_length_le _
  · intro ts h
    cases ts with
    | nil => simp [memoryK] at h
    | cons t ts' =>
      have hlen : ts'.length = 10 := by
        simpa [memoryK] using h
      have hmsgs : (appendTurns emptyMemory (t :: ts')).messages
          = turnMsgs (t :: ts') := by
        simpa [emptyMemory] using appendTurns_messages (t :: ts') emptyMemory
      simp [load_memory_variables, lastN, hmsgs, turnMsgs, turnMsgs_length,
        hlen, memoryK]

/-- Concrete list of eleven turns for the window witness. -/
def elevenTurns : List Turn :=
  (List.range 11).map (fun i => { question := Nat.repr i, answer := Nat.repr i })

/-- Witness for `memory_window_bounded_fifo` at concrete inputs. -/
theorem memory_window_bounded_fifo_witness :
    (load_memory_variables (applyOps emptyMemory [MemOp.append "q" "a"])).length
        ≤ 2 * memoryK ∧
    load_memory_variables (appendTurns emptyMemory elevenTurns)
      = turnMsgs (elevenTurns.drop 1) :=
  ⟨memory_window_bounded_fifo.1 emptyMemory [MemOp.append "q" "a"],
   memory_window_bounded_fifo.2 elevenTurns (by decide)⟩

/-- The key under which an indexed document is stored. -/
def keyOf (d : IndexedDoc) : String := d.doc.metadata.doc_id

/-- Upserting a document whose key is absent appends it. -/
theorem upsertOne_of_not_mem (coll : List IndexedDoc) (d : IndexedDoc)
    (h : keyOf d ∉ coll.map keyOf) : upsertOne coll d = coll ++ [d] := by
  unfold upsertOne
  rw [if_neg]
  intro hany
  rw [List.any_eq_true] at hany
  obtain ⟨x, hx, hbeq⟩ := hany
  exact h (List.mem_map.mpr ⟨x, hx, beq_iff_eq.mp hbeq⟩)

/-- Upserting documents with pairwise-distinct keys, all absent from the
collection, appends them all in order. -/
theorem foldl_upsert_of_disjoint (idocs : List IndexedDoc) :
    ∀ coll : List IndexedDoc, (idocs.map keyOf).Nodup →
      (∀ x ∈ idocs, keyOf x ∉ coll.map keyOf) →
      idocs.foldl upsertOne coll = coll ++ idocs := by
  induction idocs with
  | nil => intro coll _ _; simp
  | cons d ds ih =>
    intro coll hnd hdisj
    have hd : keyOf d ∉ coll.map keyOf := hdisj d (List.mem_cons_self d ds)
    have hstep : upsertOne coll d = coll ++ [d] := upsertOne_of_not_mem coll d hd
    have hnd2 : (keyOf d :: ds.map keyOf).Nodup := by
      simpa only [List.map_cons] using hnd
    have hdnotin : keyOf d ∉ ds.map keyOf := (List.nodup_cons.mp hnd2).1
    have hnd' : (ds.map keyOf).Nodup := (List.nodup_cons.mp hnd2).2
    have hdisj' : ∀ x ∈ ds, keyOf x ∉ (coll ++ [d]).map keyOf := by
      intro x hx
      simp only [List.map_append, List.mem_append, List.map_cons, List.map_nil,
        List.mem_singleton, not_or]
      refine ⟨hdisj x (List.mem_cons_of_mem d hx), ?_⟩
      intro hxy
      exact hdnotin (hxy ▸ List.mem_map.mpr ⟨x, hx, rfl⟩)
    calc (d :: ds).foldl upsertOne coll
        = ds.foldl upsertOne (upsertOne coll d) := rfl
      _ = ds.foldl upsertOne (coll ++ [d]) := by rw [hstep]
      _ = (coll ++ [d]) ++ ds := ih (coll ++ [d]) hnd' hdisj'
      _ = coll ++ (d :: ds) := by simp

/-- When the embedding provider succeeds on every text, embedding a batch
succeeds and pairs each document with some vector. -/
theorem embedAll_of_ok (embed : String → Except Unit (List Int))
    (hok : ∀ s, ∃ v, embed s = Except.ok v) (docs : List Doc) :
    ∃ idocs, embedAll embed docs = Except.ok idocs ∧
      idocs.map IndexedDoc.doc = docs := by
  induction docs with
  | nil => exact ⟨[], rfl, rfl⟩
  | cons d ds ih =>
    obtain ⟨v, hv⟩ := hok d.page_content
    obtain ⟨rest, hrest, hmap⟩ := ih
    refine ⟨{ doc := d, embedding := v } :: rest, ?_, by simp [hmap]⟩
    simp [embedAll, hv, hrest]

/-- When the embedding provider fails on every text, embedding a
non-empty batch fails. -/
theorem embedAll_of_fail (embed : String → Except Unit (List Int))
    (hfail : ∀ s, embed s = Except.error ()) (d : Doc) (ds : List Doc) :
    embedAll embed (d :: ds) = Except.error () := by
  simp [embedAll, hfail]

/-- C1 counterexample: the claim that an embedding failure during
`ingest_transactions` leaves the previously indexed documents intact is
false on the code: on a store holding one document, a rebuild whose
embedding provider always fails raises, yet afterwards the collection is
empty rather than the prior one — the collection was deleted before
embedding. -/
theorem ingest_embed_failure_not_preserving_cex :
    (ingest_transactions (fun _ => Except.error ()) [rec1]
        { coll := [{ doc := docOf rec2, embedding := [0] }],
          loaded := true }).2 = Except.error () ∧
    (ingest_transactions (fun _ => Except.error ()) [rec1]
        { coll := [{ doc := docOf rec2, embedding := [0] }],
          loaded := true }).1.coll
      ≠ [{ doc := docOf rec2, embedding := [0] }] ∧
    (ingest_transactions (fun _ => Except.error ()) [rec1]
        { coll := [{ doc := docOf rec2, embedding := [0] }],
          loaded := true }).1.coll = [] := by
  refine ⟨rfl, ?_, rfl⟩
  decide

/-- C1 amended: if the embedding provider fails during a rebuild of a
non-empty record set, `ingest_transactions` aborts with the error, but
the previously active collection has already been deleted: the resulting
collection is empty, not the prior one. -/
theorem ingest_embed_failure_leaves_empty
    (embed : String → Except Unit (List Int)) (records : List TxnDict)
    (st : MgrState) (hfail : ∀ s, embed s = Except.error ())
    (hne : records ≠ []) :
    (ingest_transactions embed records st).2 = Except.error () ∧
    (ingest_transactions embed records st).1.coll = [] := by
  cases records with
  | nil => exact absurd rfl hne
  | cons r rs =>
    unfold ingest_transactions add_documents
    dsimp only
    rw [List.map_cons, embedAll_of_fail embed hfail]
    exact ⟨rfl, rfl⟩

/-- Witness for `ingest_embed_failure_leaves_empty` at a concrete store. -/
theorem ingest_embed_failure_leaves_empty_witness :
    (ingest_transactions (fun _ => Except.error ()) [rec2]
        { coll := [{ doc := docOf rec1, embedding := [7] }],
          loaded := true }).2 = Except.error () ∧
    (ingest_transactions (fun _ => Except.error ()) [rec2]
        { coll := [{ doc := docOf rec1, embedding := [7] }],
          loaded := true }).1.coll = [] :=
  ingest_embed_failure_leaves_empty _ _ _ (fun _ => rfl) (by simp)

/-- C4: with a working embedding provider and records whose derived
doc_ids `txn_<id>` are unique, a rebuild succeeds and afterwards
`count()` equals the number of input records — one indexed document per
record in order, keyed by its doc_id — regardless of what the store held
before. -/
theorem ingest_then_count_eq_records
    (embed : String → Except Unit (List Int)) (records : List TxnDict)
    (st : MgrState) (hok : ∀ s, ∃ v, embed s = Except.ok v)
    (hnd : (records.map docIdOf).Nodup) :
    (ingest_transactions embed records st).2 = Except.ok () ∧
    countDocs (ingest_transactions embed records st).1 = records.length ∧
    ((ingest_transactions embed records st).1.coll.map keyOf)
      = records.map docIdOf := by
  obtain ⟨idocs, hem, hmap⟩ := embedAll_of_ok embed hok (records.map docOf)
  have hkeys : idocs.map keyOf = records.map docIdOf := by
    calc idocs.map keyOf
        = (idocs.map IndexedDoc.doc).map (fun d => d.metadata.doc_id) := by
          simp [keyOf]
      _ = (records.map docOf).map (fun d => d.metadata.doc_id) := by rw [hmap]
      _ = records.map docIdOf := by simp [docOf, metadataOf]
  have hfold : idocs.foldl upsertOne [] = [] ++ idocs :=
    foldl_upsert_of_disjoint idocs [] (hkeys ▸ hnd) (by simp)
  have hlen : idocs.length = records.length := by
    have := congrArg List.length hmap
    simpa using this
  unfold ingest_transactions add_documents
  dsimp only
  rw [hem]
  dsimp only
  rw [hfold]
  refine ⟨rfl, ?_, ?_⟩
  · simp [countDocs, hlen]
  · simp [hkeys]

/-- Witness for `ingest_then_count_eq_records` on two concrete records
added to a store that already held a document. -/
theorem ingest_then_count_eq_records_witness :
    (ingest_transactions (fun _ => Except.ok [1]) [rec1, rec2]
        { coll := [{ doc := docOf rec2, embedding := [5] }],
          loaded := true }).2 = Except.ok () ∧
    countDocs (ingest_transactions (fun _ => Except.ok [1]) [rec1, rec2]
        { coll := [{ doc := docOf rec2, embedding := [5] }],
          loaded := true }).1 = ([rec1, rec2] : List TxnDict).length ∧
    ((ingest_transactions (fun _ => Except.ok [1]) [rec1, rec2]
        { coll := [{ doc := docOf rec2, embedding := [5] }],
          loaded := true }).1.coll.map keyOf)
      = ([rec1, rec2] : List TxnDict).map docIdOf :=
  ingest_then_count_eq_records _ _ _ (fun s => ⟨[1], rfl⟩) (by decide)

/-- C6: when the query embedding succeeds, `similarity_search` (and so
`retrieve_transactions`) returns at most `k` documents, each present in
the current collection, and returns the empty sequence on an empty
store. -/
theorem search_at_most_k_and_members
    (sim : List Int → List Int → Int)
    (embedQ : String → Except Unit (List Int)) (q : String) (k : Nat)
    (coll : List IndexedDoc) (qe : List Int)
    (h : embedQ q = Except.ok qe) :
    ∃ docs, similarity_search sim embedQ q k coll = Except.ok docs ∧
      docs.length ≤ k ∧
      (∀ d ∈ docs, ∃ i ∈ coll, i.doc = d) ∧
      (coll = [] → docs = []) := by
  refine ⟨((coll.mergeSort
      (fun a b => sim qe b.embedding ≤ sim qe a.embedding)).take k).map
        IndexedDoc.doc, ?_, ?_, ?_, ?_⟩
  · simp [similarity_search, h]
  · simp only [List.length_map, List.length_take]
    exact inf_le_left
  · intro d hd
    obtain ⟨i, hi, hid⟩ := List.mem_map.mp hd
    have hi2 : i ∈ coll.mergeSort
        (fun a b => sim qe b.embedding ≤ sim qe a.embedding) :=
      List.mem_of_mem_take hi
    exact ⟨i, (List.mergeSort_perm coll _).mem_iff.mp hi2, hid⟩
  · intro hcoll
    subst hcoll
    simp

/-- Witness for `search_at_most_k_and_members` on a one-document store. -/
theorem search_at_most_k_and_members_witness :
    ∃ docs, similarity_search (fun _ _ => 0) (fun _ => Except.ok []) "q" 2
        [{ doc := docOf rec1, embedding := [3] }] = Except.ok docs ∧
      docs.length ≤ 2 ∧
      (∀ d ∈ docs,
        ∃ i ∈ ([{ doc := docOf rec1, embedding := [3] }] : List IndexedDoc),
          i.doc = d) ∧
      (([{ doc := docOf rec1, embedding := [3] }] : List IndexedDoc)
          = ([] : List IndexedDoc) → docs = []) :=
  search_at_most_k_and_members _ _ "q" 2 _ [] rfl

/-- C8: on a store holding exactly the two Amit records, a query for
Amit's total spending (with working providers) retrieves both documents
and returns exactly their metadata as sources. -/
theorem query_amit_total_spending_sources
    (sim : List Int → List Int → Int)
    (embedQ : String → Except Unit (List Int))
    (gen : String → Except Unit String) (e1 e2 qe : List Int)
    (mem : Memory)
    (hq : embedQ "What is Amit's total spending?" = Except.ok qe)
    (hgen : ∀ s, ∃ a, gen s = Except.ok a) :
    ((query sim embedQ gen "What is Amit's total spending?"
        { vectorstore := some [{ doc := docOf rec1, embedding := e1 },
            { doc := docOf rec2, embedding := e2 }],
          memory := mem }).1.source_documents).Perm
      [docOf rec1, docOf rec2] ∧
    ((query sim embedQ gen "What is Amit's total spending?"
        { vectorstore := some [{ doc := docOf rec1, embedding := e1 },
            { doc := docOf rec2, embedding := e2 }],
          memory := mem }).1.sources).Perm
      [metadataOf rec1, metadataOf rec2] := by
  have htake : ∀ le : IndexedDoc → IndexedDoc → Bool,
      (([{ doc := docOf rec1, embedding := e1 },
          { doc := docOf rec2, embedding := e2 }].mergeSort le).take 14)
        = [{ doc := docOf rec1, embedding := e1 },
            { doc := docOf rec2, embedding := e2 }].mergeSort le := by
    intro le
    refine List.take_of_length_le ?_
    rw [(List.mergeSort_perm _ le).length_eq]
    simp
  unfold query similarity_search
  dsimp only
  rw [hq]
  dsimp only
  rw [htake]
  split
  · next heq =>
    obtain ⟨a, ha⟩ := hgen _
    rw [heq] at ha
    cases ha
  · constructor
    · exact (List.mergeSort_perm _ _).map IndexedDoc.doc
    · exact ((List.mergeSort_perm _ _).map IndexedDoc.doc).map Doc.metadata

/-- Witness for `query_amit_total_spending_sources` with concrete
providers and embeddings. -/
theorem query_amit_total_spending_sources_witness :
    ((query (fun _ _ => 0) (fun _ => Except.ok []) (fun _ => Except.ok "a")
        "What is Amit's total spending?"
        { vectorstore := some [{ doc := docOf rec1, embedding := [1] },
            { doc := docOf rec2, embedding := [2] }],
          memory := emptyMemory }).1.source_documents).Perm
      [docOf rec1, docOf rec2] ∧
    ((query (fun _ _ => 0) (fun _ => Except.ok []) (fun _ => Except.ok "a")
        "What is Amit's total spending?"
        { vectorstore := some [{ doc := docOf rec1, embedding := [1] },
            { doc := docOf rec2, embedding := [2] }],
          memory := emptyMemory }).1.sources).Perm
      [metadataOf rec1, metadataOf rec2] :=
  query_amit_total_spending_sources _ _ _ _ _ _ _ rfl (fun _ => ⟨"a", rfl⟩)

end RagBot
